import Mathlib

/-!
Verification development for the memory-augmented chat coordinator
(`src/tokenizer.ts`, `src/chatSession.ts`, `src/vectorStore.ts`).

The TypeScript source is shallowly embedded: pure functions become Lean
functions, the stateful turn handler becomes an explicit state-passing
function, JS strings are Lean `String`s (or `List Char` where the code
slices by character index), JS numbers holding token counts are `Nat`,
and the (possibly negative) token budget is `Int`.  The external Llama 3
tokenizer (`llama3-tokenizer-js`, not part of this repository) is kept
abstract as a function `ct : String → Nat`.
-/

namespace ChatApp

/-- Chat message roles, from the `Message` interface in `tokenizer.ts`. -/
inductive Role where
  | system
  | user
  | assistant
deriving DecidableEq, Repr

/-- Embeds `interface Message { role; content }` from `tokenizer.ts` / `chatSession.ts`. -/
structure Message where
  role : Role
  content : String
deriving DecidableEq, Repr

/-- Embeds `const PER_MESSAGE_OVERHEAD = 4` from `tokenizer.ts`. -/
def PER_MESSAGE_OVERHEAD : Nat := 4

/-- Embeds `countMessageTokens` from `tokenizer.ts`:
`countTokens(message.content) + PER_MESSAGE_OVERHEAD`, with the external
tokenizer `countTokens` abstracted as a parameter `ct`. -/
def countMessageTokens (ct : String → Nat) (m : Message) : Nat :=
  ct m.content + PER_MESSAGE_OVERHEAD

/-- Cumulative framed token count of a message list. -/
def sumMessageTokens (ct : String → Nat) (l : List Message) : Nat :=
  (l.map (countMessageTokens ct)).sum

/-- The backward scan of `trimMessagesToFitContext`, acting on the REVERSED
message list (newest first), carrying the running total `total`.  Mirrors the
loop `for (i = len-1; i >= 0; i--) { if (total + t > maxTokens) break; ... }`;
the kept messages are rebuilt in original order. -/
def trimAux (ct : String → Nat) (maxTokens : Int) : List Message → Nat → List Message
  | [], _ => []
  | m :: rest, total =>
      let msgTokens := countMessageTokens ct m
      if ((total + msgTokens : Nat) : Int) > maxTokens then []
      else trimAux ct maxTokens rest (total + msgTokens) ++ [m]

/-- Embeds `trimMessagesToFitContext` from `tokenizer.ts`: largest trailing suffix of
`messages` whose cumulative framed token count stays within `maxTokens`. -/
def trimMessagesToFitContext (ct : String → Nat) (messages : List Message)
    (maxTokens : Int) : List Message :=
  trimAux ct maxTokens messages.reverse 0

/-! ### `chatSession.ts`: context assembly (lines 171-222) -/

/-- Embeds `const MAX_CONTEXT_TOKENS = 24_000` from `chatSession.ts`. -/
def MAX_CONTEXT_TOKENS : Nat := 24000

/-- Embeds `const MAX_RESPONSE_TOKENS = 1_024` from `chatSession.ts`. -/
def MAX_RESPONSE_TOKENS : Nat := 1024

/-- Embeds `const MAX_RECALLED_TOKENS = 2_000` from `chatSession.ts`. -/
def MAX_RECALLED_TOKENS : Nat := 2000

/-- Embeds `const MAX_FACTS_TOKENS = 1_000` from `chatSession.ts`. -/
def MAX_FACTS_TOKENS : Nat := 1000

/-- The recalled-memory system message built at `chatSession.ts:178-181`. -/
def recalledMemoryMessage (recalledContext : String) : Message :=
  ⟨.system, "Recalled memory from earlier in this conversation:\n" ++ recalledContext⟩

/-- The known-facts system message built at `chatSession.ts:192-195`. -/
def knownFactsMessage (factsContext : String) : Message :=
  ⟨.system, "Known facts stored by the user:\n" ++ factsContext⟩

/-- Result of the prompt-assembly section of the `/chat` handler. -/
structure AssembledContext where
  recalledMessage : Option Message
  factsMessage : Option Message
  recalledTokens : Nat
  factsTokens : Nat
  availableForHistory : Int
  finalMessages : List Message
deriving Repr

/-- Embeds `chatSession.ts` lines 171-222: compute the per-block token charges, the
history budget, run the trimmer, and assemble the final prompt
(system → facts → recalled → trimmed history).  JS string truthiness
(`if (recalledContext)`) becomes a test against `""`. -/
def assembleContext (ct : String → Nat) (systemPrompt : Message)
    (recalledContext factsContext : String) (messages : List Message) :
    AssembledContext :=
  let systemTokens := countMessageTokens ct systemPrompt
  let recalledMessage : Option Message :=
    if recalledContext = "" then none else some (recalledMemoryMessage recalledContext)
  let recalledTokens : Nat :=
    match recalledMessage with
    | some m => min (countMessageTokens ct m) MAX_RECALLED_TOKENS
    | none => 0
  let factsMessage : Option Message :=
    if factsContext = "" then none else some (knownFactsMessage factsContext)
  let factsTokens : Nat :=
    match factsMessage with
    | some m => min (countMessageTokens ct m) MAX_FACTS_TOKENS
    | none => 0
  let availableForHistory : Int :=
    (MAX_CONTEXT_TOKENS : Int) - (MAX_RESPONSE_TOKENS : Int)
      - (systemTokens : Int) - (recalledTokens : Int) - (factsTokens : Int)
  let trimmed := trimMessagesToFitContext ct messages availableForHistory
  { recalledMessage := recalledMessage
    factsMessage := factsMessage
    recalledTokens := recalledTokens
    factsTokens := factsTokens
    availableForHistory := availableForHistory
    finalMessages := [systemPrompt] ++ factsMessage.toList ++ recalledMessage.toList ++ trimmed }

/-! ### `chatSession.ts`: the `/chat` turn as a state transformer

The Durable Object serializes requests, so a turn is a function of the
in-memory message list.  External effects (D1 inserts, Vectorize calls, the
generative model call) are recorded in an ordered trace; their
success/failure, and the model's response, are inputs of the model since they
are decided outside the program. -/

/-- One attempted external side effect of a `/chat` turn, in program order.
Each best-effort step carries whether its `try` block succeeded; failures are
caught and logged, so they never alter the message list. -/
inductive TurnEffect where
  | persistUser (ok : Bool)
  | embedUser (ok : Bool)
  | queryRecalled (ok : Bool)
  | queryFacts (ok : Bool)
  | aiCall
  | persistAssistant (ok : Bool)
  | embedAssistant (ok : Bool)
deriving DecidableEq, Repr

/-- Environment of one turn: outcomes of the best-effort steps and of the
generative model call.  `ai = .ok r` models a successful `AI.run` whose
`response` field is `r` (`none` = field missing); `.error` models a throw. -/
structure TurnEnv where
  persistUserOk : Bool
  embedUserOk : Bool
  recallOk : Bool
  factsOk : Bool
  ai : Except Unit (Option String)
  persistAsstOk : Bool
  embedAsstOk : Bool
deriving Repr

/-- The fallback reply at `chatSession.ts:236`. -/
def fallbackReply : String := "Sorry, I could not generate a response."

/-- Embeds `aiResponse?.response || 'Sorry, I could not generate a response.'`:
a missing or empty (falsy) response yields the fallback. -/
def orFallback (resp : Option String) : String :=
  match resp with
  | none => fallbackReply
  | some s => if s = "" then fallbackReply else s

/-- The `POST /chat` branch of `ChatSession.fetch` (`chatSession.ts:75-274`)
restricted to its observable state: the in-memory message list, the ordered
trace of attempted external effects, and the HTTP result (reply or error).
The user message is pushed before any external call; the assistant message is
pushed only when `AI.run` returns. -/
def handleChatTurn (msgs : List Message) (userText : String) (env : TurnEnv) :
    List Message × List TurnEffect × Except String String :=
  let msgs1 := msgs ++ [⟨.user, userText⟩]
  let pre : List TurnEffect :=
    [.persistUser env.persistUserOk, .embedUser env.embedUserOk,
     .queryRecalled env.recallOk, .queryFacts env.factsOk]
  match env.ai with
  | .error _ => (msgs1, pre ++ [.aiCall], .error "AI inference failed")
  | .ok resp =>
      let assistantMessage := orFallback resp
      (msgs1 ++ [⟨.assistant, assistantMessage⟩],
       pre ++ [.aiCall, .persistAssistant env.persistAsstOk,
               .embedAssistant env.embedAsstOk],
       .ok assistantMessage)

/-- Run a sequence of `/chat` turns, each given by its user text and its
environment, threading the in-memory message list. -/
def runTurns (turns : List (String × TurnEnv)) (msgs : List Message) :
    List Message :=
  turns.foldl (fun acc t => (handleChatTurn acc t.1 t.2).1) msgs

/-! ### `vectorStore.ts`: document chunking and record ids -/

/-- Embeds `const CHUNK_SIZE = 1500` from `storeDocument`. -/
def CHUNK_SIZE : Nat := 1500

/-- Embeds `const OVERLAP = 200` from `storeDocument`. -/
def OVERLAP : Nat := 200

/-- Embeds `const BATCH_SIZE = 20` from `storeDocument`. -/
def BATCH_SIZE : Nat := 20

/-- The chunking loop of `storeDocument` (`vectorStore.ts:49-53`):
`while (i < content.length) { chunks.push(content.slice(i, i + CHUNK_SIZE)); i += CHUNK_SIZE - OVERLAP; }`.
Content is a character sequence; `slice(i, i + CHUNK_SIZE)` is `drop`/`take`. -/
def chunkLoop (content : List Char) (i : Nat) : List (List Char) :=
  if _h : i < content.length then
    (content.drop i).take CHUNK_SIZE :: chunkLoop content (i + (CHUNK_SIZE - OVERLAP))
  else []
termination_by content.length - i
decreasing_by
  simp only [CHUNK_SIZE, OVERLAP]
  omega

/-- The chunk list of `storeDocument` for a given content (loop from `i = 0`). -/
def documentChunks (content : List Char) : List (List Char) :=
  chunkLoop content 0

/-- Embeds `shortId` from `vectorStore.ts` (maximum length made explicit;
the source default is 48). -/
def shortId (id : String) (maxLen : Nat) : String :=
  if id.length > maxLen then id.take maxLen else id

/-- The vector id assigned to document chunk `globalIdx` at `vectorStore.ts:68`:
`doc::${shortId(sessionId, 20)}::${shortId(filename, 20)}::${globalIdx}`. -/
def docVectorId (sessionId filename : String) (globalIdx : Nat) : String :=
  "doc::" ++ shortId sessionId 20 ++ "::" ++ shortId filename 20 ++ "::" ++ toString globalIdx

/-- Ids inserted by the batch loop of `storeDocument` (`vectorStore.ts:57-82`),
in insertion order, as a function of the chunk count: each batch covers chunk
indices `batchIdx .. batchIdx + min BATCH_SIZE (numChunks - batchIdx) - 1`
(the length of `chunks.slice(batchIdx, batchIdx + BATCH_SIZE)`), and the id of
the chunk at offset `idx` within the batch uses `globalIdx = batchIdx + idx`. -/
def docBatchIds (sessionId filename : String) (numChunks batchIdx : Nat) :
    List String :=
  if _h : batchIdx < numChunks then
    ((List.range (min BATCH_SIZE (numChunks - batchIdx))).map
        fun idx => docVectorId sessionId filename (batchIdx + idx))
      ++ docBatchIds sessionId filename numChunks (batchIdx + BATCH_SIZE)
  else []
termination_by numChunks - batchIdx
decreasing_by
  simp only [BATCH_SIZE]
  omega

/-! ### `vectorStore.ts`: capped namespace clearing -/

/-- Embeds `const FACTS_NAMESPACE = '__global_facts__'` from `vectorStore.ts`. -/
def FACTS_NAMESPACE : String := "__global_facts__"

/-- A stored vector record, reduced to the fields namespace clearing observes:
its id and its namespace (`ns`).  Vector values and metadata are irrelevant
to deletion. -/
structure VRecord where
  id : String
  ns : String
deriving DecidableEq, Repr

/-- Embeds `vectorize.deleteByIds(ids)`: remove every record whose id is listed. -/
def deleteByIds (index : List VRecord) (ids : List String) : List VRecord :=
  index.filter (fun r => !(ids.contains r.id))

/-- The records of one namespace (what a namespace-scoped query can see). -/
def nsRecords (index : List VRecord) (ns : String) : List VRecord :=
  index.filter (fun r => r.ns == ns)

/-- Embeds `clearSessionVectors` / `clearFacts` (`vectorStore.ts:147-165, 231-246`):
query the namespace with a zero vector and `topK: 100`, then delete the
matched ids (if any).  The external query's result is abstracted as the id
list `matchIds` it returns; the Vectorize `topK` contract bounds its length
by 100 (hypothesis of the theorems below). -/
def clearNamespaceOnce (matchIds : List String) (index : List VRecord) :
    List VRecord :=
  if matchIds.length > 0 then deleteByIds index matchIds else index

/-! ### `chatSession.ts`: recalled-memory filtering (lines 138-149) -/

/-- One match returned by `queryRelevantMessages`: role, content, and the
similarity score.  Scores are modelled as rationals; the code only compares
them against the literal `0.99`. -/
structure RecallMatch where
  role : String
  content : String
  score : ℚ
deriving DecidableEq, Repr

/-- The self-recall filter at `chatSession.ts:140-142`:
`relevant.filter((r) => r.score < 0.99 && r.content !== message)`. -/
def filterRecalled (relevant : List RecallMatch) (message : String) :
    List RecallMatch :=
  relevant.filter (fun r => decide (r.score < 99 / 100 ∧ r.content ≠ message))

/-- The recalled-context block built from the filtered matches
(`chatSession.ts:144-149`): one `[role]: content` line per match, joined by
newlines; empty when nothing survives the filter. -/
def recalledContextOf (relevant : List RecallMatch) (message : String) : String :=
  let filtered := filterRecalled relevant message
  if filtered.length > 0 then
    String.intercalate "\n" (filtered.map fun r => "[" ++ r.role ++ "]: " ++ r.content)
  else ""

/-- A concrete executable tokenizer (character count), used to instantiate
the abstract `countTokens` parameter in concrete evaluations. -/
def lengthTokenizer : String → Nat := String.length

/-- A message list alternates user/assistant pairs: the message at every even
position is a user message and at every odd position an assistant message. -/
def alternatingRoles (l : List Message) : Prop :=
  ∀ i (h : i < l.length),
    (l.get ⟨i, h⟩).role = if i % 2 = 0 then Role.user else Role.assistant

/-! ## Theorems -/

@[simp]
theorem sumMessageTokens_nil (ct : String → Nat) : sumMessageTokens ct [] = 0 := rfl

@[simp]
theorem sumMessageTokens_cons (ct : String → Nat) (m : Message) (l : List Message) :
    sumMessageTokens ct (m :: l) = countMessageTokens ct m + sumMessageTokens ct l := by
  simp [sumMessageTokens]

@[simp]
theorem sumMessageTokens_append (ct : String → Nat) (l₁ l₂ : List Message) :
    sumMessageTokens ct (l₁ ++ l₂) = sumMessageTokens ct l₁ + sumMessageTokens ct l₂ := by
  simp [sumMessageTokens]

@[simp]
theorem sumMessageTokens_reverse (ct : String → Nat) (l : List Message) :
    sumMessageTokens ct l.reverse = sumMessageTokens ct l := by
  simp [sumMessageTokens, List.sum_reverse]

theorem trimAux_reverse_initial (ct : String → Nat) (maxTokens : Int) :
    ∀ (rev : List Message) (total : Nat),
      (trimAux ct maxTokens rev total).reverse <+: rev := by
  intro rev
  induction rev with
  | nil => intro total; simp [trimAux]
  | cons m rest ih =>
      intro total
      rw [trimAux]
      split
      · simp
      · obtain ⟨t, ht⟩ := ih (total + countMessageTokens ct m)
        refine ⟨t, ?_⟩
        rw [List.reverse_append, List.reverse_cons, List.reverse_nil,
          List.nil_append, List.singleton_append, List.cons_append, ht]

/-- The trimmer's output is a contiguous trailing suffix of its input. -/
theorem trim_isSuffix (ct : String → Nat) (messages : List Message)
    (maxTokens : Int) :
    trimMessagesToFitContext ct messages maxTokens <:+ messages := by
  have h := trimAux_reverse_initial ct maxTokens messages.reverse 0
  rw [← List.reverse_suffix] at h
  simpa [trimMessagesToFitContext] using h

theorem trimAux_sum_le (ct : String → Nat) (maxTokens : Int) :
    ∀ (rev : List Message) (total : Nat),
      (total : Int) ≤ maxTokens →
      ((total + sumMessageTokens ct (trimAux ct maxTokens rev total) : Nat) : Int)
        ≤ maxTokens := by
  intro rev
  induction rev with
  | nil => intro total h; simpa [trimAux, sumMessageTokens] using h
  | cons m rest ih =>
      intro total h
      rw [trimAux]
      split
      · simpa [sumMessageTokens] using h
      · rename_i hle
        push_neg at hle
        have := ih (total + countMessageTokens ct m) hle
        rw [sumMessageTokens_append, sumMessageTokens_cons, sumMessageTokens_nil]
        push_cast at this ⊢
        omega

/-- When the budget is nonnegative, the trimmer's output fits in the budget. -/
theorem trim_sum_le (ct : String → Nat) (messages : List Message)
    (maxTokens : Int) (h : 0 ≤ maxTokens) :
    ((sumMessageTokens ct (trimMessagesToFitContext ct messages maxTokens) : Nat) : Int)
      ≤ maxTokens := by
  have := trimAux_sum_le ct maxTokens messages.reverse 0 (by simpa using h)
  simpa [trimMessagesToFitContext] using this

theorem trimAux_maximal (ct : String → Nat) (maxTokens : Int) :
    ∀ (rev p : List Message) (total : Nat),
      p <+: rev →
      ((total + sumMessageTokens ct p : Nat) : Int) ≤ maxTokens →
      p.length ≤ (trimAux ct maxTokens rev total).length := by
  intro rev
  induction rev with
  | nil =>
      intro p total hp _
      simp [List.prefix_nil.mp hp]
  | cons m rest ih =>
      intro p total hp hsum
      cases p with
      | nil => simp
      | cons q p' =>
          obtain ⟨hq, hp'⟩ : q = m ∧ p' <+: rest := by
            rcases hp with ⟨t, ht⟩
            cases ht
            exact ⟨rfl, ⟨t, rfl⟩⟩
          subst hq
          rw [trimAux]
          have hsum' : ((total + countMessageTokens ct q
              + sumMessageTokens ct p' : Nat) : Int) ≤ maxTokens := by
            rw [sumMessageTokens_cons] at hsum
            push_cast at hsum ⊢
            omega
          have hfit : ¬ (((total + countMessageTokens ct q : Nat) : Int) > maxTokens) := by
            push_cast at hsum' ⊢
            omega
          rw [if_neg hfit]
          have := ih p' (total + countMessageTokens ct q) hp' hsum'
          simpa using Nat.succ_le_succ this

/-- Among all suffixes fitting a nonnegative budget, the trimmer returns the
longest. -/
theorem trim_maximal (ct : String → Nat) (messages s : List Message)
    (maxTokens : Int) (hs : s <:+ messages)
    (hsum : ((sumMessageTokens ct s : Nat) : Int) ≤ maxTokens) :
    s.length ≤ (trimMessagesToFitContext ct messages maxTokens).length := by
  have hp : s.reverse <+: messages.reverse := by
    rw [ List.reverse_prefix]
    simpa using hs
  have hsum' : ((0 + sumMessageTokens ct s.reverse : Nat) : Int) ≤ maxTokens := by
    rw [sumMessageTokens_reverse, Nat.zero_add]
    exact hsum
  have := trimAux_maximal ct maxTokens messages.reverse s.reverse 0 hp hsum'
  simpa [trimMessagesToFitContext] using this

/-- If the newest (last) message alone exceeds the budget, the trimmer returns
the empty list. -/
theorem trim_empty_of_newest_exceeds (ct : String → Nat) (rest : List Message)
    (m : Message) (maxTokens : Int)
    (h : maxTokens < (countMessageTokens ct m : Int)) :
    trimMessagesToFitContext ct (rest ++ [m]) maxTokens = [] := by
  rw [trimMessagesToFitContext, List.reverse_append]
  simp only [List.reverse_cons, List.reverse_nil, List.nil_append,
    List.singleton_append, trimAux]
  rw [if_pos]
  simpa using h

/-- C1, counterexample: for the (negative) integer budget −1 the trimmer
returns the empty list, whose cumulative framed token count 0 exceeds the
budget — so the output is NOT a suffix whose cumulative `countMessageTokens`
sum stays within the budget (for a negative budget no suffix qualifies, the
empty one included), refuting the claim's characterization for every integer
budget. -/
theorem C1_counterexample :
    ¬ ((sumMessageTokens lengthTokenizer
          (trimMessagesToFitContext lengthTokenizer [⟨Role.user, "hi"⟩] (-1))
        : Nat) : Int) ≤ -1 := by
  decide

/-- C1, amended: for every message list and every integer budget,
`trimMessagesToFitContext` returns a contiguous trailing suffix of the input
in original order; whenever the budget is nonnegative this suffix is the
longest suffix whose cumulative `countMessageTokens` sum does not exceed the
budget; and it is empty whenever the newest message's framed token count
alone exceeds the budget. -/
theorem C1_trim_longest_suffix (ct : String → Nat) (messages : List Message)
    (maxTokens : Int) :
    trimMessagesToFitContext ct messages maxTokens <:+ messages
    ∧ (0 ≤ maxTokens →
        ((sumMessageTokens ct (trimMessagesToFitContext ct messages maxTokens)
            : Nat) : Int) ≤ maxTokens
        ∧ ∀ s, s <:+ messages →
            ((sumMessageTokens ct s : Nat) : Int) ≤ maxTokens →
            s.length ≤ (trimMessagesToFitContext ct messages maxTokens).length)
    ∧ (∀ rest m, messages = rest ++ [m] →
        maxTokens < (countMessageTokens ct m : Int) →
        trimMessagesToFitContext ct messages maxTokens = []) := by
  refine ⟨trim_isSuffix ct messages maxTokens, fun h => ⟨trim_sum_le ct messages maxTokens h,
    fun s hs hsum => trim_maximal ct messages s maxTokens hs hsum⟩, ?_⟩
  rintro rest m rfl hm
  exact trim_empty_of_newest_exceeds ct rest m maxTokens hm

/-- C1, witness: on `[user "ab", user "c"]` with budget 7 (framed counts 6
and 5) the trimmer keeps a fitting suffix at least as long as the fitting
suffix `[user "c"]`; on `[user "abcdef"]` with budget 7 (framed count 10) it
returns the empty list. -/
theorem C1_trim_longest_suffix_witness :
    ((sumMessageTokens lengthTokenizer
        (trimMessagesToFitContext lengthTokenizer
          [⟨Role.user, "ab"⟩, ⟨Role.user, "c"⟩] 7) : Nat) : Int) ≤ 7
    ∧ [(⟨Role.user, "c"⟩ : Message)].length ≤
        (trimMessagesToFitContext lengthTokenizer
          [⟨Role.user, "ab"⟩, ⟨Role.user, "c"⟩] 7).length
    ∧ trimMessagesToFitContext lengthTokenizer [⟨Role.user, "abcdef"⟩] 7 = [] :=
  ⟨((C1_trim_longest_suffix lengthTokenizer
      [⟨Role.user, "ab"⟩, ⟨Role.user, "c"⟩] 7).2.1 (by decide)).1,
   ((C1_trim_longest_suffix lengthTokenizer
      [⟨Role.user, "ab"⟩, ⟨Role.user, "c"⟩] 7).2.1 (by decide)).2
     [⟨Role.user, "c"⟩] ⟨[⟨Role.user, "ab"⟩], rfl⟩ (by decide),
   (C1_trim_longest_suffix lengthTokenizer [⟨Role.user, "abcdef"⟩] 7).2.2
     [] ⟨Role.user, "abcdef"⟩ rfl (by decide)⟩

/-- C6: `countMessageTokens` is the content's token count plus the fixed
framing constant 4 (the full, untruncated content is what is counted); when
the tokenizer sends the empty string to 0, a message with empty content
costs exactly the overhead 4. -/
theorem C6_countMessageTokens_framing (ct : String → Nat) (m : Message) :
    countMessageTokens ct m = ct m.content + 4
    ∧ (ct "" = 0 → m.content = "" → countMessageTokens ct m = 4) := by
  refine ⟨rfl, fun h0 hc => ?_⟩
  simp [countMessageTokens, hc, h0, PER_MESSAGE_OVERHEAD]

/-- C6, witness: with the character-count tokenizer (which sends `""` to 0),
a message with empty content counts exactly 4 tokens. -/
theorem C6_countMessageTokens_framing_witness :
    countMessageTokens lengthTokenizer ⟨Role.user, ""⟩ = 4 :=
  (C6_countMessageTokens_framing lengthTokenizer ⟨Role.user, ""⟩).2 rfl rfl

theorem alternatingRoles_nil : alternatingRoles [] := by
  intro i h
  simp at h

theorem alternatingRoles_append_pair (l : List Message) (u a : String)
    (hlen : l.length % 2 = 0) (hl : alternatingRoles l) :
    alternatingRoles (l ++ [⟨Role.user, u⟩, ⟨Role.assistant, a⟩]) := by
  intro i h
  simp only [List.get_eq_getElem] at *
  rcases Nat.lt_or_ge i l.length with hi | hi
  · rw [List.getElem_append_left hi]
    have := hl i hi
    simpa using this
  · rw [List.getElem_append_right hi]
    have hlt : i - l.length < 2 := by
      simp only [List.length_append, List.length_cons, List.length_nil] at h
      omega
    rcases Nat.lt_or_ge (i - l.length) 1 with h0 | h1
    · have he : i - l.length = 0 := by omega
      have hmod : i % 2 = 0 := by omega
      simp [he, hmod]
    · have he : i - l.length = 1 := by omega
      have hmod : i % 2 = 1 := by omega
      simp [he, hmod]

theorem runTurns_cons (t : String × TurnEnv) (ts : List (String × TurnEnv))
    (msgs : List Message) :
    runTurns (t :: ts) msgs = runTurns ts (handleChatTurn msgs t.1 t.2).1 := by
  simp [runTurns]

theorem handleChatTurn_ok_messages (msgs : List Message) (userText : String)
    (env : TurnEnv) (r : Option String) (h : env.ai = Except.ok r) :
    (handleChatTurn msgs userText env).1
      = msgs ++ [⟨Role.user, userText⟩, ⟨Role.assistant, orFallback r⟩] := by
  simp [handleChatTurn, h]

theorem runTurns_spec (turns : List (String × TurnEnv)) :
    ∀ msgs : List Message, (∀ t ∈ turns, (t.2.ai).isOk = true) →
      msgs.length % 2 = 0 → alternatingRoles msgs →
      (runTurns turns msgs).length = msgs.length + 2 * turns.length
      ∧ alternatingRoles (runTurns turns msgs) := by
  induction turns with
  | nil =>
      intro msgs _ _ halt
      exact ⟨by simp [runTurns], halt⟩
  | cons t ts ih =>
      intro msgs hok hlen halt
      have hthd : (t.2.ai).isOk = true := hok t (List.mem_cons_self t ts)
      obtain ⟨r, hr⟩ : ∃ r, t.2.ai = Except.ok r := by
        cases hai : t.2.ai with
        | ok v => exact ⟨v, rfl⟩
        | error e => rw [hai] at hthd; simp [Except.isOk, Except.toBool] at hthd
      rw [runTurns_cons, handleChatTurn_ok_messages msgs t.1 t.2 r hr]
      have h1 : (msgs ++ [Message.mk Role.user t.1,
          Message.mk Role.assistant (orFallback r)]).length % 2 = 0 := by
        simp only [List.length_append, List.length_cons, List.length_nil]
        omega
      have h2 := alternatingRoles_append_pair msgs t.1 (orFallback r) hlen halt
      have hrec := ih (msgs ++ [Message.mk Role.user t.1,
          Message.mk Role.assistant (orFallback r)])
        (fun t' ht' => hok t' (List.mem_cons_of_mem t ht')) h1 h2
      refine ⟨?_, hrec.2⟩
      rw [hrec.1]
      simp only [List.length_append, List.length_cons, List.length_nil]
      omega

/-- C3: after any number of successful turns on a fresh (empty) conversation
— regardless of the success of the best-effort persist/embed steps recorded
in each turn's environment — the in-memory list has exactly `2N` messages,
and its positions `0..2N−1` (gapless by list indexing) alternate user then
assistant. -/
theorem C3_sequence_integrity (turns : List (String × TurnEnv))
    (hok : ∀ t ∈ turns, (t.2.ai).isOk = true) :
    (runTurns turns []).length = 2 * turns.length
    ∧ alternatingRoles (runTurns turns []) := by
  have h := runTurns_spec turns [] hok (by simp) alternatingRoles_nil
  exact ⟨by simpa using h.1, h.2⟩

/-- C3, witness: two successful turns — with every best-effort persistence
and vector-storage step failing — leave exactly four messages, the second of
which (position 1) is the assistant reply. -/
theorem C3_sequence_integrity_witness :
    (runTurns [("hi", ⟨false, false, false, false, Except.ok (some "yo"), false, false⟩),
               ("more", ⟨false, false, false, false, Except.ok (some "ok"), false, false⟩)]
        []).length = 2 * 2
    ∧ (runTurns [("hi", ⟨false, false, false, false, Except.ok (some "yo"), false, false⟩),
                 ("more", ⟨false, false, false, false, Except.ok (some "ok"), false, false⟩)]
        []).map Message.role
      = [Role.user, Role.assistant, Role.user, Role.assistant] := by
  have h := C3_sequence_integrity
    [("hi", ⟨false, false, false, false, Except.ok (some "yo"), false, false⟩),
     ("more", ⟨false, false, false, false, Except.ok (some "ok"), false, false⟩)]
    (by decide)
  exact ⟨h.1, by decide⟩

/-- C2: when both a recalled-memory block and a facts block are present, the
history budget handed to the trimmer is
`24000 − 1024 − systemTokens − min(recalled message tokens, 2000) −
min(facts message tokens, 1000)`, and the caps charge the budget only: the
assembled prompt contains the full, untruncated recalled and facts messages
(system → facts → recalled → trimmed history). -/
theorem C2_history_budget (ct : String → Nat) (systemPrompt : Message)
    (recalledContext factsContext : String) (messages : List Message)
    (hr : recalledContext ≠ "") (hf : factsContext ≠ "") :
    (assembleContext ct systemPrompt recalledContext factsContext messages).availableForHistory
      = (24000 : Int) - 1024 - (countMessageTokens ct systemPrompt : Int)
        - ((min (countMessageTokens ct (recalledMemoryMessage recalledContext)) 2000 : Nat) : Int)
        - ((min (countMessageTokens ct (knownFactsMessage factsContext)) 1000 : Nat) : Int)
    ∧ (assembleContext ct systemPrompt recalledContext factsContext messages).finalMessages
      = [systemPrompt, knownFactsMessage factsContext, recalledMemoryMessage recalledContext]
        ++ trimMessagesToFitContext ct messages
            (assembleContext ct systemPrompt recalledContext factsContext
              messages).availableForHistory := by
  constructor
  · simp [assembleContext, hr, hf, MAX_CONTEXT_TOKENS, MAX_RESPONSE_TOKENS,
      MAX_RECALLED_TOKENS, MAX_FACTS_TOKENS]
  · simp [assembleContext, hr, hf, MAX_CONTEXT_TOKENS, MAX_RESPONSE_TOKENS,
      MAX_RECALLED_TOKENS, MAX_FACTS_TOKENS]

/-- C2, witness: concrete instantiation with one-character context blocks and
the character-count tokenizer. -/
theorem C2_history_budget_witness :
    (assembleContext lengthTokenizer ⟨Role.system, "s"⟩ "r" "f" []).availableForHistory
      = (24000 : Int) - 1024 - (countMessageTokens lengthTokenizer ⟨Role.system, "s"⟩ : Int)
        - ((min (countMessageTokens lengthTokenizer (recalledMemoryMessage "r")) 2000 : Nat) : Int)
        - ((min (countMessageTokens lengthTokenizer (knownFactsMessage "f")) 1000 : Nat) : Int)
    ∧ (assembleContext lengthTokenizer ⟨Role.system, "s"⟩ "r" "f" []).finalMessages
      = [⟨Role.system, "s"⟩, knownFactsMessage "f", recalledMemoryMessage "r"]
        ++ trimMessagesToFitContext lengthTokenizer []
            (assembleContext lengthTokenizer ⟨Role.system, "s"⟩ "r" "f" []).availableForHistory :=
  C2_history_budget lengthTokenizer ⟨Role.system, "s"⟩ "r" "f" [] (by decide) (by decide)

/-- C4: if the generative model call throws, the turn returns an explicit
error, no assistant message is appended (the user message just pushed stays
last), and the user-message persist/embed steps were attempted, in order,
before the model call. -/
theorem C4_model_failure_keeps_user (msgs : List Message) (userText : String)
    (env : TurnEnv) (h : env.ai = Except.error ()) :
    (handleChatTurn msgs userText env).2.2 = Except.error "AI inference failed"
    ∧ (handleChatTurn msgs userText env).1 = msgs ++ [⟨Role.user, userText⟩]
    ∧ (handleChatTurn msgs userText env).2.1
      = [TurnEffect.persistUser env.persistUserOk, TurnEffect.embedUser env.embedUserOk,
         TurnEffect.queryRecalled env.recallOk, TurnEffect.queryFacts env.factsOk,
         TurnEffect.aiCall] := by
  refine ⟨?_, ?_, ?_⟩ <;> simp [handleChatTurn, h]

/-- C4, witness: a turn on the empty history whose model call throws, with
the best-effort persist/embed steps succeeding. -/
theorem C4_model_failure_keeps_user_witness :
    (handleChatTurn [] "hi" ⟨true, true, true, true, Except.error (), true, true⟩).2.2
      = Except.error "AI inference failed"
    ∧ (handleChatTurn [] "hi" ⟨true, true, true, true, Except.error (), true, true⟩).1
      = [] ++ [⟨Role.user, "hi"⟩]
    ∧ (handleChatTurn [] "hi" ⟨true, true, true, true, Except.error (), true, true⟩).2.1
      = [TurnEffect.persistUser true, TurnEffect.embedUser true,
         TurnEffect.queryRecalled true, TurnEffect.queryFacts true, TurnEffect.aiCall] :=
  C4_model_failure_keeps_user [] "hi" ⟨true, true, true, true, Except.error (), true, true⟩ rfl

/-- C10: if the model call succeeds but its response field is missing or
empty, the turn reports success with the fixed fallback string as the reply;
the fallback is appended to the in-memory messages and its persist/embed
steps are attempted exactly like a real reply's. -/
theorem C10_missing_response_fallback (msgs : List Message) (userText : String)
    (env : TurnEnv)
    (h : env.ai = Except.ok none ∨ env.ai = Except.ok (some "")) :
    (handleChatTurn msgs userText env).2.2 = Except.ok fallbackReply
    ∧ (handleChatTurn msgs userText env).1
      = msgs ++ [⟨Role.user, userText⟩, ⟨Role.assistant, fallbackReply⟩]
    ∧ (handleChatTurn msgs userText env).2.1
      = [TurnEffect.persistUser env.persistUserOk, TurnEffect.embedUser env.embedUserOk,
         TurnEffect.queryRecalled env.recallOk, TurnEffect.queryFacts env.factsOk,
         TurnEffect.aiCall, TurnEffect.persistAssistant env.persistAsstOk,
         TurnEffect.embedAssistant env.embedAsstOk] := by
  rcases h with h | h <;>
    exact ⟨by simp [handleChatTurn, h, orFallback],
           by simp [handleChatTurn, h, orFallback],
           by simp [handleChatTurn, h, orFallback]⟩

/-- C10, witness: a model call that returns successfully with an empty
response string yields the fallback reply, appended and persisted/embedded. -/
theorem C10_missing_response_fallback_witness :
    (handleChatTurn [] "hi" ⟨true, true, true, true, Except.ok (some ""), true, true⟩).2.2
      = Except.ok fallbackReply
    ∧ (handleChatTurn [] "hi" ⟨true, true, true, true, Except.ok (some ""), true, true⟩).1
      = [] ++ [⟨Role.user, "hi"⟩, ⟨Role.assistant, fallbackReply⟩]
    ∧ (handleChatTurn [] "hi" ⟨true, true, true, true, Except.ok (some ""), true, true⟩).2.1
      = [TurnEffect.persistUser true, TurnEffect.embedUser true,
         TurnEffect.queryRecalled true, TurnEffect.queryFacts true,
         TurnEffect.aiCall, TurnEffect.persistAssistant true,
         TurnEffect.embedAssistant true] :=
  C10_missing_response_fallback [] "hi"
    ⟨true, true, true, true, Except.ok (some ""), true, true⟩ (Or.inr rfl)

theorem chunkLoop_step (content : List Char) (i : Nat) (h : i < content.length) :
    chunkLoop content i
      = (content.drop i).take CHUNK_SIZE :: chunkLoop content (i + 1300) := by
  rw [chunkLoop, dif_pos h]
  rfl

theorem chunkLoop_stop (content : List Char) (i : Nat) (h : ¬ i < content.length) :
    chunkLoop content i = [] := by
  rw [chunkLoop, dif_neg h]

theorem chunkLoop_fuel_length (content : List Char) :
    ∀ (fuel i : Nat), content.length - i ≤ fuel →
      (chunkLoop content i).length ≤ content.length - i := by
  intro fuel
  induction fuel with
  | zero =>
      intro i h
      have hstop : ¬ i < content.length := by omega
      rw [chunkLoop_stop content i hstop]
      simp
  | succ n ih =>
      intro i h
      by_cases hi : i < content.length
      · rw [chunkLoop_step content i hi]
        have := ih (i + 1300) (by omega)
        simp only [List.length_cons]
        omega
      · rw [chunkLoop_stop content i hi]
        simp

theorem chunkLoop_length_le (content : List Char) (i : Nat) :
    (chunkLoop content i).length ≤ content.length - i :=
  chunkLoop_fuel_length content (content.length - i) i (Nat.le_refl _)

theorem chunkLoop_on_4000 (content : List Char) (h : content.length = 4000) :
    chunkLoop content 0
      = [content.take CHUNK_SIZE, (content.drop 1300).take CHUNK_SIZE,
         (content.drop 2600).take CHUNK_SIZE, (content.drop 3900).take CHUNK_SIZE] := by
  rw [chunkLoop_step content 0 (by omega)]
  rw [show (0 : Nat) + 1300 = 1300 from rfl]
  rw [chunkLoop_step content 1300 (by omega)]
  rw [show (1300 : Nat) + 1300 = 2600 from rfl]
  rw [chunkLoop_step content 2600 (by omega)]
  rw [show (2600 : Nat) + 1300 = 3900 from rfl]
  rw [chunkLoop_step content 3900 (by omega)]
  rw [show (3900 : Nat) + 1300 = 5200 from rfl]
  rw [chunkLoop_stop content 5200 (by omega)]
  simp

theorem docBatchIds_step (sessionId filename : String) (numChunks batchIdx : Nat)
    (h : batchIdx < numChunks) :
    docBatchIds sessionId filename numChunks batchIdx
      = ((List.range (min BATCH_SIZE (numChunks - batchIdx))).map
          fun idx => docVectorId sessionId filename (batchIdx + idx))
        ++ docBatchIds sessionId filename numChunks (batchIdx + BATCH_SIZE) := by
  rw [docBatchIds, dif_pos h]

theorem docBatchIds_stop (sessionId filename : String) (numChunks batchIdx : Nat)
    (h : ¬ batchIdx < numChunks) :
    docBatchIds sessionId filename numChunks batchIdx = [] := by
  rw [docBatchIds, dif_neg h]

theorem docBatchIds_four (sessionId filename : String) :
    docBatchIds sessionId filename 4 0
      = [docVectorId sessionId filename 0, docVectorId sessionId filename 1,
         docVectorId sessionId filename 2, docVectorId sessionId filename 3] := by
  rw [docBatchIds_step sessionId filename 4 0 (by omega)]
  rw [docBatchIds_stop sessionId filename 4 (0 + BATCH_SIZE) (by simp [BATCH_SIZE])]
  rw [show min BATCH_SIZE (4 - 0) = 4 from rfl]
  simp [List.range_succ]

/-- C5, counterexample: a 4000-character content chunked with window 1500 and
stride 1300 yields FOUR windows (offsets 0, 1300, 2600 and 3900 — the loop
condition `i < content.length` still holds at `i = 3900`), not the three the
claim states. -/
theorem C5_counterexample :
    (documentChunks (List.replicate 4000 'a')).length ≠ 3 := by
  rw [documentChunks,
    chunkLoop_on_4000 (List.replicate 4000 'a') (by rw [List.length_replicate])]
  simp only [List.length_cons, List.length_nil]
  omega

/-- C5, amended: `storeDocument` on a 4000-character content with window 1500
and overlap 200 produces exactly FOUR windows, at character offsets 0, 1300,
2600 and 3900 (stride 1500 − 200 = 1300; the last window is the 100-character
tail), and the four inserted records receive pairwise distinct ids. -/
theorem C5_storeDocument_chunks (content : List Char) (h : content.length = 4000) :
    documentChunks content
      = [content.take CHUNK_SIZE, (content.drop 1300).take CHUNK_SIZE,
         (content.drop 2600).take CHUNK_SIZE, (content.drop 3900).take CHUNK_SIZE]
    ∧ docBatchIds "c1" "notes.txt" (documentChunks content).length 0
      = [docVectorId "c1" "notes.txt" 0, docVectorId "c1" "notes.txt" 1,
         docVectorId "c1" "notes.txt" 2, docVectorId "c1" "notes.txt" 3]
    ∧ (docBatchIds "c1" "notes.txt" (documentChunks content).length 0).Nodup := by
  have h4 : documentChunks content
      = [content.take CHUNK_SIZE, (content.drop 1300).take CHUNK_SIZE,
         (content.drop 2600).take CHUNK_SIZE, (content.drop 3900).take CHUNK_SIZE] :=
    chunkLoop_on_4000 content h
  have hlen : (documentChunks content).length = 4 := by rw [h4]; rfl
  rw [hlen]
  refine ⟨h4, docBatchIds_four "c1" "notes.txt", ?_⟩
  rw [docBatchIds_four "c1" "notes.txt"]
  decide

/-- C5, witness: the amended statement instantiated at the 4000-character
content `replicate 4000 'a'`; the four windows have lengths 1500, 1500, 1400
and 100. -/
theorem C5_storeDocument_chunks_witness :
    documentChunks (List.replicate 4000 'a')
      = [List.replicate 1500 'a', List.replicate 1500 'a',
         List.replicate 1400 'a', List.replicate 100 'a']
    ∧ (docBatchIds "c1" "notes.txt" (documentChunks (List.replicate 4000 'a')).length 0).Nodup := by
  have h := C5_storeDocument_chunks (List.replicate 4000 'a') (by rw [List.length_replicate])
  refine ⟨?_, h.2.2⟩
  rw [h.1]
  simp only [CHUNK_SIZE, List.take_replicate, List.drop_replicate]
  norm_num

/-- C9: the chunking loop of `storeDocument` makes forward progress — the
overlap 200 is strictly below the window size 1500, the stride is the
positive constant 1300 — so every finite content yields finitely many
windows: their number is bounded by the content length. -/
theorem C9_chunking_terminates :
    OVERLAP < CHUNK_SIZE ∧ CHUNK_SIZE - OVERLAP = 1300
    ∧ ∀ content : List Char, (documentChunks content).length ≤ content.length := by
  refine ⟨by decide, rfl, fun content => ?_⟩
  have := chunkLoop_length_le content 0
  simpa [documentChunks] using this

theorem filter_removed_le (l : List VRecord) (ids : List String)
    (hnd : (l.map VRecord.id).Nodup) :
    l.length ≤ (l.filter (fun r => !(ids.contains r.id))).length + ids.length := by
  have hsplit := List.length_eq_length_filter_add (l := l) (fun r => !(ids.contains r.id))
  simp only [Bool.not_not] at hsplit
  have hsubl : List.Sublist
      ((l.filter (fun r => ids.contains r.id)).map VRecord.id)
      (l.map VRecord.id) :=
    (List.filter_sublist l).map VRecord.id
  have h1 : ((l.filter (fun r => ids.contains r.id)).map VRecord.id).Nodup :=
    hnd.sublist hsubl
  have h2 : (l.filter (fun r => ids.contains r.id)).map VRecord.id ⊆ ids := by
    intro x hx
    simp only [List.mem_map, List.mem_filter] at hx
    obtain ⟨r, ⟨_, hc⟩, rfl⟩ := hx
    simpa using hc
  have h3 := (h1.subperm h2).length_le
  rw [List.length_map] at h3
  omega

theorem nsRecords_deleteByIds (index : List VRecord) (ids : List String) (ns : String) :
    nsRecords (deleteByIds index ids) ns
      = (nsRecords index ns).filter (fun r => !(ids.contains r.id)) := by
  simp only [nsRecords, deleteByIds, List.filter_filter]
  congr 1
  funext r
  rw [Bool.and_comm]

/-- C7: one `clearSessionVectors` / `clearFacts` call deletes at most the 100
records its capped enumeration query can return: if the namespace held `n`
records (record ids being unique), at least `n − 100` remain afterwards, so a
namespace with more than 100 records is not fully cleared in one call. -/
theorem C7_clearNamespace_cap (index : List VRecord) (ns : String)
    (matchIds : List String)
    (hnd : (index.map VRecord.id).Nodup) (hcap : matchIds.length ≤ 100) :
    (nsRecords index ns).length - 100
      ≤ (nsRecords (clearNamespaceOnce matchIds index) ns).length
    ∧ (100 < (nsRecords index ns).length →
        nsRecords (clearNamespaceOnce matchIds index) ns ≠ []) := by
  by_cases hm : matchIds.length > 0
  · have hclear : clearNamespaceOnce matchIds index = deleteByIds index matchIds := by
      simp [clearNamespaceOnce, hm]
    have hnodup : ((nsRecords index ns).map VRecord.id).Nodup :=
      hnd.sublist ((List.filter_sublist index).map VRecord.id)
    have hle := filter_removed_le (nsRecords index ns) matchIds hnodup
    rw [hclear, nsRecords_deleteByIds]
    refine ⟨by omega, fun hbig => List.ne_nil_of_length_pos (by omega)⟩
  · have hclear : clearNamespaceOnce matchIds index = index := by
      simp [clearNamespaceOnce, hm]
    rw [hclear]
    exact ⟨by omega, fun hbig => List.ne_nil_of_length_pos (by omega)⟩

/-- C7, witness: a three-record index (two records in namespace `"s"`), one
matched id — after clearing, namespace `"s"` still holds at least
`2 − 100 = 0` records. -/
theorem C7_clearNamespace_cap_witness :
    (nsRecords [⟨"a", "s"⟩, ⟨"b", "s"⟩, ⟨"c", "t"⟩] "s").length - 100
      ≤ (nsRecords (clearNamespaceOnce ["a"] [⟨"a", "s"⟩, ⟨"b", "s"⟩, ⟨"c", "t"⟩]) "s").length :=
  (C7_clearNamespace_cap [⟨"a", "s"⟩, ⟨"b", "s"⟩, ⟨"c", "t"⟩] "s" ["a"]
    (by decide) (by decide)).1

/-- C8: every match surviving the self-recall filter (hence included in the
recalled-memory block) has similarity score strictly below 0.99 and content
different from the just-submitted message; every match with score ≥ 0.99 or
content equal to the submitted text is discarded. -/
theorem C8_self_recall_filter (relevant : List RecallMatch) (message : String) :
    (∀ r ∈ filterRecalled relevant message,
        r.score < 99 / 100 ∧ r.content ≠ message)
    ∧ (∀ r ∈ relevant, (99 / 100 ≤ r.score ∨ r.content = message) →
        r ∉ filterRecalled relevant message) := by
  constructor
  · intro r hr
    exact of_decide_eq_true (List.mem_filter.mp hr).2
  · intro r _ hbad hmem
    have h := of_decide_eq_true (List.mem_filter.mp hmem).2
    rcases hbad with hs | hc
    · exact absurd h.1 (not_lt.mpr hs)
    · exact h.2 hc

/-- C8, witness: of two matches for the message `"hi"`, the distinct-content
one passes the filter (score 1/2 < 0.99, content ≠ "hi"), while the one whose
content equals the message is discarded. -/
theorem C8_self_recall_filter_witness :
    ((⟨"user", "hello", 1 / 2⟩ : RecallMatch).score < 99 / 100
      ∧ (⟨"user", "hello", 1 / 2⟩ : RecallMatch).content ≠ "hi")
    ∧ (⟨"assistant", "hi", 1 / 2⟩ : RecallMatch)
        ∉ filterRecalled [⟨"user", "hello", 1 / 2⟩, ⟨"assistant", "hi", 1 / 2⟩] "hi" :=
  ⟨(C8_self_recall_filter [⟨"user", "hello", 1 / 2⟩, ⟨"assistant", "hi", 1 / 2⟩] "hi").1
      ⟨"user", "hello", 1 / 2⟩
      (by
        norm_num [filterRecalled, List.mem_filter]
        decide),
   (C8_self_recall_filter [⟨"user", "hello", 1 / 2⟩, ⟨"assistant", "hi", 1 / 2⟩] "hi").2
      ⟨"assistant", "hi", 1 / 2⟩ (by simp) (Or.inr rfl)⟩

end ChatApp
